import Mathlib

/-!
# Verification of the mcp-auth-edge OAuth bearer-token gate

Shallow embedding of the Supabase edge-function examples in this repository:
the bearer-auth middleware (`authMiddleware`), the token validator
(`validateToken`), the `WWW-Authenticate` challenge builder
(`buildWwwAuthenticateHeader`), the protected-resource discovery handler, and
the three URL-resolution variants found across the example functions.

JavaScript-level operations used by the source (`String.prototype.split(' ')`,
`String.prototype.toLowerCase`, `String.prototype.includes`, `||` defaulting
and truthiness of optional strings) are embedded as executable Lean functions.
-/

namespace McpAuthEdge

/-- JS truthiness of an optional string: `undefined` and `""` are falsy,
every other string is truthy. -/
def jsTruthy : Option String → Bool
  | none => false
  | some s => s != ""

/-- JS `x || d` on an optional string `x` with string default `d`:
returns `d` when `x` is `undefined` or `""`, else the string in `x`. -/
def jsOrDefault : Option String → String → String
  | none, d => d
  | some s, d => if s == "" then d else s

/-- Accumulator loop of `jsSplitSpace`: splits a character list at every
space character, keeping empty segments, exactly like JS `split(' ')`. -/
def splitSpaceAux : List Char → List Char → List String
  | [], acc => [String.mk acc.reverse]
  | c :: rest, acc =>
      if c = ' ' then String.mk acc.reverse :: splitSpaceAux rest []
      else splitSpaceAux rest (c :: acc)

/-- JS `s.split(' ')`: split at every single space, keep empty segments;
the empty string yields `[""]`. -/
def jsSplitSpace (s : String) : List String :=
  splitSpaceAux s.toList []

/-- ASCII lowering of one character ('A'-'Z' map to 'a'-'z'). -/
def lowerChar (c : Char) : Char :=
  if 'A' ≤ c ∧ c ≤ 'Z' then Char.ofNat (c.toNat + 32) else c

/-- JS `s.toLowerCase()` restricted to ASCII, which is all the source
compares (`scheme.toLowerCase() !== 'bearer'`). -/
def jsToLowerCase (s : String) : String :=
  String.mk (s.toList.map lowerChar)

/-- Substring search on character lists, used to embed JS `includes`. -/
def containsSub : List Char → List Char → Bool
  | sub, [] => sub.isEmpty
  | sub, c :: t => sub.isPrefixOf (c :: t) || containsSub sub t

/-- JS `s.includes(sub)`. -/
def jsIncludes (s sub : String) : Bool :=
  containsSub sub.toList s.toList

/-- The identity service's account record (`supabase.auth.getUser()`'s
`data.user`), opaque to the gate. -/
structure SupabaseUser where
  id : String
deriving DecidableEq, Repr

/-- Result of the external `supabase.auth.getUser()` call: an optional user
and an optional error whose `message` field is the carried string. -/
structure GetUserResult where
  user : Option SupabaseUser
  error : Option String
deriving DecidableEq, Repr

/-- Return type of `validateToken`. -/
structure ValidateResult where
  valid : Bool
  user : Option SupabaseUser
  error : Option String
deriving DecidableEq, Repr

/-- Source `validateToken`: calls the identity service (`getUser`,
passed explicitly since it is an external collaborator) and folds the
outcome: `if (error || !user)` return invalid with
`error?.message || 'Invalid token'`, else valid with the user. -/
def validateToken (getUser : String → GetUserResult) (token : String) :
    ValidateResult :=
  let r := getUser token
  if r.error.isSome || r.user.isNone then
    { valid := false, user := none, error := some (jsOrDefault r.error "Invalid token") }
  else
    { valid := true, user := r.user, error := none }

/-- Source `buildWwwAuthenticateHeader`: starts from
`Bearer resource_metadata="<mcpResourceUrl>/.well-known/oauth-protected-resource"`
and appends `, error="..."` and `, error_description="..."` only when the
corresponding argument is truthy. -/
def buildWwwAuthenticateHeader (mcpResourceUrl : String)
    (error errorDescription : Option String) : String :=
  let resourceMetadataUrl := mcpResourceUrl ++ "/.well-known/oauth-protected-resource"
  let header := "Bearer resource_metadata=\"" ++ resourceMetadataUrl ++ "\""
  let header := if jsTruthy error then header ++ ", error=\"" ++ error.getD "" ++ "\"" else header
  let header := if jsTruthy errorDescription then
      header ++ ", error_description=\"" ++ errorDescription.getD "" ++ "\"" else header
  header

/-- JSON error body `{ error, error_description }` of a 401 response. -/
structure ErrorBody where
  error : String
  error_description : String
deriving DecidableEq, Repr

/-- Observable events of one middleware run: the introspection call,
storing the user in the request context (`c.set('user', user)`), and
passing control to the next handler (`await next()`). -/
inductive Effect where
  | introspect (token : String)
  | setUser (user : Option SupabaseUser)
  | callNext
deriving DecidableEq, Repr

/-- Outcome of the gate: a rejection response (status, JSON body,
`WWW-Authenticate` value) or admission carrying the context user. -/
inductive GateResult where
  | reject (status : Nat) (body : ErrorBody) (wwwAuthenticate : String)
  | allow (user : Option SupabaseUser)
deriving DecidableEq, Repr

/-- The `// Validate the token` tail of `authMiddleware`: run
`validateToken`; on failure reject with `invalid_token` and description
`error || 'Token validation failed'`; on success store the user
(`c.set('user', user)`) and run the next handler (`await next()`). -/
def authValidatePhase (mcpResourceUrl : String)
    (getUser : String → GetUserResult) (token : String) :
    GateResult × List Effect :=
  let v := validateToken getUser token
  if !v.valid then
    (GateResult.reject 401
      { error := "invalid_token", error_description := jsOrDefault v.error "Token validation failed" }
      (buildWwwAuthenticateHeader mcpResourceUrl (some "invalid_token") v.error),
     [Effect.introspect token])
  else
    (GateResult.allow v.user,
     [Effect.introspect token, Effect.setUser v.user, Effect.callNext])

/-- Branch of `authMiddleware` for a present `Authorization` header `h`:
`const [scheme, token] = authHeader.split(' ')`, the framing check
`scheme?.toLowerCase() !== 'bearer' || !token`, then the validation tail. -/
def authMiddlewareHeader (mcpResourceUrl : String)
    (getUser : String → GetUserResult) (h : String) :
    GateResult × List Effect :=
  let parts := jsSplitSpace h
  let scheme := parts.headD ""
  let token? := parts[1]?
  if jsToLowerCase scheme != "bearer" || !(jsTruthy token?) then
    (GateResult.reject 401
      { error := "invalid_request", error_description := "Invalid authorization header format" }
      (buildWwwAuthenticateHeader mcpResourceUrl (some "invalid_request") (some "Bearer token required")),
     [])
  else
    authValidatePhase mcpResourceUrl getUser (token?.getD "")

/-- Source `authMiddleware`: the guard `if (!authHeader)` tests JS
falsiness, so a missing header and a present-but-empty header value are both
rejected immediately as `unauthorized` with the bare challenge; otherwise
the header branch runs on the (necessarily non-empty) header string. -/
def authMiddleware (mcpResourceUrl : String)
    (getUser : String → GetUserResult) (authHeader : Option String) :
    GateResult × List Effect :=
  if !(jsTruthy authHeader) then
    (GateResult.reject 401
      { error := "unauthorized", error_description := "Missing authorization header" }
      (buildWwwAuthenticateHeader mcpResourceUrl none none),
     [])
  else
    authMiddlewareHeader mcpResourceUrl getUser (authHeader.getD "")

/-- Fixed function name of the env-override and kong-marker variants. -/
def functionName : String := "simple-mcp-server"

/-- Source `publicUrl` of the env-override variant:
`Deno.env.get('PUBLIC_URL') || supabaseUrl + '/functions/v1/simple-mcp-server'`. -/
def publicUrl (supabaseUrl : String) (publicUrlEnv : Option String) : String :=
  jsOrDefault publicUrlEnv (supabaseUrl ++ "/functions/v1/simple-mcp-server")

/-- Source `authServerUrl` of the env-override variant:
`Deno.env.get('AUTH_SERVER_URL') || supabaseUrl + '/auth/v1'`. -/
def authServerUrl (supabaseUrl : String) (authServerUrlEnv : Option String) : String :=
  jsOrDefault authServerUrlEnv (supabaseUrl ++ "/auth/v1")

/-- Source `getUrls` of the env-override variant, as the pair
`(mcpResourceUrl, wellKnownAuthorizationServerUrl)`. -/
def getUrls (supabaseUrl : String) (publicUrlEnv authServerUrlEnv : Option String) :
    String × String :=
  (publicUrl supabaseUrl publicUrlEnv, authServerUrl supabaseUrl authServerUrlEnv)

/-- Source `getPublicBaseUrl` of the kong-marker variant: substitute the fixed
local base only when the configured base contains `'kong'`. -/
def getPublicBaseUrl (rawSupabaseUrl : String) : String :=
  if jsIncludes rawSupabaseUrl "kong" then "http://localhost:54321" else rawSupabaseUrl

/-- Source `getUrls` of the kong-marker variant:
`(base + '/functions/v1/' + functionName, base + '/auth/v1')` over the
resolved base. -/
def getUrlsKongVariant (rawSupabaseUrl : String) : String × String :=
  let supabaseUrl := getPublicBaseUrl rawSupabaseUrl
  (supabaseUrl ++ "/functions/v1/" ++ functionName, supabaseUrl ++ "/auth/v1")

/-- Source `isLocal` of the marker-set variant:
`url.includes('127.0.0.1') || url.includes('localhost') || url.includes('kong:8000')`. -/
def isLocal (supabaseUrl : String) : Bool :=
  jsIncludes supabaseUrl "127.0.0.1" || jsIncludes supabaseUrl "localhost" ||
    jsIncludes supabaseUrl "kong:8000"

/-- Source `publicUrl` of the marker-set variant. -/
def publicUrlLocalVariant (supabaseUrl : String) : String :=
  if isLocal supabaseUrl then "http://localhost:54321/functions/v1/mcp"
  else supabaseUrl ++ "/functions/v1/mcp"

/-- Source `authServerUrl` of the marker-set variant. -/
def authServerUrlLocalVariant (supabaseUrl : String) : String :=
  if isLocal supabaseUrl then "http://localhost:54321/auth/v1"
  else supabaseUrl ++ "/auth/v1"

/-- Discovery document returned by the well-known endpoint. -/
structure DiscoveryDoc where
  resource : String
  authorization_servers : List String
  scopes_supported : List String
deriving DecidableEq, Repr

/-- The `/.well-known/oauth-protected-resource` handler body: status 200
and the three-field JSON document. -/
def discoveryHandler (mcpResourceUrl wellKnownAuthorizationServerUrl : String) :
    Nat × DiscoveryDoc :=
  (200,
   { resource := mcpResourceUrl,
     authorization_servers := [wellKnownAuthorizationServerUrl],
     scopes_supported := ["openid", "profile", "email"] })

/-- An inbound HTTP request as the routed app observes it: method, path
relative to the base path, and the optional `Authorization` header. -/
structure Request where
  method : String
  path : String
  authorization : Option String
deriving DecidableEq, Repr

/-- A routed response of the example app. -/
inductive AppResponse where
  | json (status : Nat) (doc : DiscoveryDoc)
  | authError (status : Nat) (body : ErrorBody) (wwwAuthenticate : String)
  | health
  | mcpHandled (user : Option SupabaseUser)
  | notFound
deriving DecidableEq, Repr

/-- Routing of the env-override variant app: `GET
/.well-known/oauth-protected-resource` serves discovery without touching the
`Authorization` header, `GET /` is the health check, `/mcp` runs
`authMiddleware` and on admission reaches the MCP handler with the stored
context user. -/
def handleRequest (supabaseUrl : String) (publicUrlEnv authServerUrlEnv : Option String)
    (getUser : String → GetUserResult) (req : Request) : AppResponse :=
  let urls := getUrls supabaseUrl publicUrlEnv authServerUrlEnv
  if req.method == "GET" && req.path == "/.well-known/oauth-protected-resource" then
    let r := discoveryHandler urls.1 urls.2
    AppResponse.json r.1 r.2
  else if req.method == "GET" && req.path == "/" then
    AppResponse.health
  else if req.path == "/mcp" then
    match authMiddleware urls.1 getUser req.authorization with
    | (GateResult.reject s b w, _) => AppResponse.authError s b w
    | (GateResult.allow u, _) => AppResponse.mcpHandled u
  else AppResponse.notFound

/-- The framing condition of the gate, as a Boolean: the first
space-separated part lowers to `"bearer"` and the second part exists and is
non-empty. `authMiddleware` rejects with `invalid_request` exactly when this
is false. -/
def schemeTokenOk (h : String) : Bool :=
  jsToLowerCase ((jsSplitSpace h).headD "") == "bearer" && jsTruthy (jsSplitSpace h)[1]?

/-- The `invalid_request` rejection value of the gate. -/
def invalidRequestReject (mcpResourceUrl : String) : GateResult :=
  GateResult.reject 401
    { error := "invalid_request", error_description := "Invalid authorization header format" }
    (buildWwwAuthenticateHeader mcpResourceUrl (some "invalid_request") (some "Bearer token required"))

/-- The opening fragment every challenge value starts with:
`Bearer resource_metadata="<ResourceIdentity>/.well-known/oauth-protected-resource"`. -/
def challengeBase (mcpResourceUrl : String) : String :=
  "Bearer resource_metadata=\"" ++ (mcpResourceUrl ++ "/.well-known/oauth-protected-resource") ++ "\""

/-- The challenge grammar of the spec: the base fragment, optionally
followed by an `error` parameter and then an `error_description` parameter,
in that order. -/
def challengeHasForm (mcpResourceUrl s : String) : Prop :=
  s = challengeBase mcpResourceUrl
  ∨ (∃ e, s = challengeBase mcpResourceUrl ++ ", error=\"" ++ e ++ "\"")
  ∨ (∃ e d, s = challengeBase mcpResourceUrl ++ ", error=\"" ++ e ++ "\"" ++
      ", error_description=\"" ++ d ++ "\"")

/-- An identity-service stub that reports neither a user nor an error. -/
def noUserNoError : String → GetUserResult :=
  fun _ => { user := none, error := none }

/-- An identity-service stub that always accepts, returning user `u1`. -/
def alwaysValidOracle : String → GetUserResult :=
  fun _ => { user := some { id := "u1" }, error := none }

/-! ## Helper lemmas -/

theorem jsTruthy_iff_getD (o : Option String) : jsTruthy o = true ↔ o.getD "" ≠ "" := by
  cases o <;> simp [jsTruthy]

theorem jsOrDefault_some_ne (s d : String) (hs : s ≠ "") : jsOrDefault (some s) d = s := by
  simp [jsOrDefault, hs]

theorem jsOrDefault_ne_empty (o : Option String) (d : String) (hd : d ≠ "") :
    jsOrDefault o d ≠ "" := by
  cases o with
  | none => simpa [jsOrDefault] using hd
  | some s =>
      by_cases hs : s = "" <;> simp [jsOrDefault, hs, hd]

theorem validateToken_of_failure (getUser : String → GetUserResult) (token : String)
    (hfail : (getUser token).error.isSome ∨ (getUser token).user = none) :
    validateToken getUser token =
      { valid := false, user := none,
        error := some (jsOrDefault (getUser token).error "Invalid token") } := by
  have hc : ((getUser token).error.isSome || (getUser token).user.isNone) = true := by
    rcases hfail with hf | hf
    · simp [hf]
    · simp [hf]
  simp [validateToken, hc]

theorem validateToken_of_success (getUser : String → GetUserResult) (token : String)
    (u : SupabaseUser) (hg : getUser token = { user := some u, error := none }) :
    validateToken getUser token = { valid := true, user := some u, error := none } := by
  simp [validateToken, hg]

theorem authValidatePhase_of_failure (mcpResourceUrl : String)
    (getUser : String → GetUserResult) (token : String)
    (hfail : (getUser token).error.isSome ∨ (getUser token).user = none) :
    authValidatePhase mcpResourceUrl getUser token =
      (GateResult.reject 401
        { error := "invalid_token",
          error_description := jsOrDefault (getUser token).error "Invalid token" }
        (buildWwwAuthenticateHeader mcpResourceUrl (some "invalid_token")
          (some (jsOrDefault (getUser token).error "Invalid token"))),
       [Effect.introspect token]) := by
  have hX : jsOrDefault (getUser token).error "Invalid token" ≠ "" :=
    jsOrDefault_ne_empty _ _ (by simp)
  simp [authValidatePhase, validateToken_of_failure getUser token hfail,
    jsOrDefault_some_ne _ _ hX]

theorem authValidatePhase_of_success (mcpResourceUrl : String)
    (getUser : String → GetUserResult) (token : String) (u : SupabaseUser)
    (hg : getUser token = { user := some u, error := none }) :
    authValidatePhase mcpResourceUrl getUser token =
      (GateResult.allow (some u),
       [Effect.introspect token, Effect.setUser (some u), Effect.callNext]) := by
  simp [authValidatePhase, validateToken_of_success getUser token u hg]

theorem authMiddlewareHeader_cases (mcpResourceUrl : String)
    (getUser : String → GetUserResult) (h : String) :
    authMiddlewareHeader mcpResourceUrl getUser h =
      if schemeTokenOk h then
        authValidatePhase mcpResourceUrl getUser ((jsSplitSpace h)[1]?.getD "")
      else (invalidRequestReject mcpResourceUrl, []) := by
  unfold authMiddlewareHeader schemeTokenOk invalidRequestReject
  cases hA : jsToLowerCase ((jsSplitSpace h).head?.getD "") == "bearer" <;>
    cases hB : jsTruthy (jsSplitSpace h)[1]? <;>
      simp [hA, hB, bne]

theorem authMiddleware_falsy (mcpResourceUrl : String)
    (getUser : String → GetUserResult) (authHeader : Option String)
    (hf : jsTruthy authHeader = false) :
    authMiddleware mcpResourceUrl getUser authHeader =
      (GateResult.reject 401
        { error := "unauthorized", error_description := "Missing authorization header" }
        (buildWwwAuthenticateHeader mcpResourceUrl none none),
       []) := by
  simp [authMiddleware, hf]

theorem authMiddleware_some (mcpResourceUrl : String)
    (getUser : String → GetUserResult) (h : String) (hne : h ≠ "") :
    authMiddleware mcpResourceUrl getUser (some h) =
      authMiddlewareHeader mcpResourceUrl getUser h := by
  simp [authMiddleware, jsTruthy, hne]

theorem authValidatePhase_ne_invalidRequest (mcpResourceUrl : String)
    (getUser : String → GetUserResult) (token : String) :
    (authValidatePhase mcpResourceUrl getUser token).1 ≠ invalidRequestReject mcpResourceUrl := by
  unfold authValidatePhase
  cases hv : (validateToken getUser token).valid <;> simp [hv, invalidRequestReject]

theorem authValidatePhase_count_introspect (mcpResourceUrl : String)
    (getUser : String → GetUserResult) (token : String) :
    (authValidatePhase mcpResourceUrl getUser token).2.count (Effect.introspect token) = 1 := by
  unfold authValidatePhase
  cases hv : (validateToken getUser token).valid <;> simp [hv, List.count_cons]

/-! ## Claim theorems -/

/-- C1: a request to the protected path with no `Authorization` header is
rejected with HTTP 401, JSON body `{error: "unauthorized", error_description:
"Missing authorization header"}`, and a `WWW-Authenticate` value that is
exactly the bare `Bearer resource_metadata="<url>"` fragment, with no `error`
or `error_description` parameters; no introspection happens. -/
theorem missing_header_unauthorized (mcpResourceUrl : String)
    (getUser : String → GetUserResult) :
    authMiddleware mcpResourceUrl getUser none =
      (GateResult.reject 401
        { error := "unauthorized", error_description := "Missing authorization header" }
        (challengeBase mcpResourceUrl),
       []) := rfl

/-- C2 counterexample: a present-but-empty `Authorization` header value is
JS-falsy, so the source's `if (!authHeader)` guard rejects it as
`unauthorized`, not `invalid_request`, even though its first space-separated
part (`""`) is not, case-insensitively, `"bearer"`. -/
theorem empty_header_not_invalid_request_counterexample :
    jsToLowerCase ((jsSplitSpace "").headD "") ≠ "bearer"
    ∧ (authMiddleware "https://m" noUserNoError (some "")).1 =
        GateResult.reject 401
          { error := "unauthorized", error_description := "Missing authorization header" }
          (challengeBase "https://m")
    ∧ (authMiddleware "https://m" noUserNoError (some "")).1 ≠
        invalidRequestReject "https://m" := by
  exact ⟨by decide, rfl, by decide⟩

/-- C2 (amended): a present and non-empty `Authorization` header is rejected
with the 401 `invalid_request` response exactly when its first
space-separated part does not lower to `"bearer"` or its second part is
absent or empty; and the identity service is introspected (exactly once,
with that second part) exactly when the framing check passes. A
present-but-empty header value is falsy and is instead rejected as
`unauthorized`, like a missing header. -/
theorem bearer_framing_check (mcpResourceUrl : String)
    (getUser : String → GetUserResult) (h : String) (hne : h ≠ "") :
    ((authMiddleware mcpResourceUrl getUser (some h)).1 = invalidRequestReject mcpResourceUrl
        ↔ schemeTokenOk h = false)
    ∧ (authMiddleware mcpResourceUrl getUser (some h)).2.count
        (Effect.introspect ((jsSplitSpace h)[1]?.getD ""))
      = (if schemeTokenOk h then 1 else 0) := by
  rw [authMiddleware_some mcpResourceUrl getUser h hne, authMiddlewareHeader_cases]
  cases hok : schemeTokenOk h with
  | false => simp
  | true =>
      simp [authValidatePhase_ne_invalidRequest mcpResourceUrl getUser,
        authValidatePhase_count_introspect mcpResourceUrl getUser]

/-- C2 witness: the non-bearer header `"Basic x"` is rejected as
`invalid_request` with no introspection. -/
theorem bearer_framing_check_witness :
    ((authMiddleware "https://m" noUserNoError (some "Basic x")).1 =
        invalidRequestReject "https://m" ↔ schemeTokenOk "Basic x" = false)
    ∧ (authMiddleware "https://m" noUserNoError (some "Basic x")).2.count
        (Effect.introspect ((jsSplitSpace "Basic x")[1]?.getD ""))
      = (if schemeTokenOk "Basic x" then 1 else 0) :=
  bearer_framing_check "https://m" noUserNoError "Basic x" (by decide)

/-- C5: an unauthenticated `GET` to `/.well-known/oauth-protected-resource`
returns HTTP 200 with exactly the three-field document `resource =
ResourceIdentity`, `authorization_servers = [AuthorizationServerReference]`,
`scopes_supported = ["openid", "profile", "email"]`, regardless of any
`Authorization` header and of the identity service (pure handler, no error
path). -/
theorem discovery_contract (supabaseUrl : String)
    (publicUrlEnv authServerUrlEnv : Option String)
    (getUser : String → GetUserResult) (auth : Option String) :
    handleRequest supabaseUrl publicUrlEnv authServerUrlEnv getUser
        { method := "GET", path := "/.well-known/oauth-protected-resource",
          authorization := auth } =
      AppResponse.json 200
        { resource := publicUrl supabaseUrl publicUrlEnv,
          authorization_servers := [authServerUrl supabaseUrl authServerUrlEnv],
          scopes_supported := ["openid", "profile", "email"] } := rfl

/-- C7: with environment base URL `https://proj.example.co` and no
overrides, both URL-resolution variants yield resource
`https://proj.example.co/functions/v1/simple-mcp-server` and authorization
server `https://proj.example.co/auth/v1`, and the discovery endpoint serves
exactly those values. -/
theorem production_urls_scenario :
    getUrls "https://proj.example.co" none none =
      ("https://proj.example.co/functions/v1/simple-mcp-server",
       "https://proj.example.co/auth/v1")
    ∧ getUrlsKongVariant "https://proj.example.co" =
      ("https://proj.example.co/functions/v1/simple-mcp-server",
       "https://proj.example.co/auth/v1")
    ∧ handleRequest "https://proj.example.co" none none noUserNoError
        { method := "GET", path := "/.well-known/oauth-protected-resource",
          authorization := none } =
      AppResponse.json 200
        { resource := "https://proj.example.co/functions/v1/simple-mcp-server",
          authorization_servers := ["https://proj.example.co/auth/v1"],
          scopes_supported := ["openid", "profile", "email"] } := by
  refine ⟨rfl, ?_, rfl⟩
  decide

/-- C9: the resolved URLs are pure functions of the startup environment and
no request mutates them: any two discovery requests in the same process —
whatever their `Authorization` headers and whatever the identity service did
in between — receive identical responses. -/
theorem discovery_idempotent (supabaseUrl : String)
    (publicUrlEnv authServerUrlEnv : Option String)
    (getUser1 getUser2 : String → GetUserResult) (r1 r2 : Request)
    (h1m : r1.method = "GET") (h1p : r1.path = "/.well-known/oauth-protected-resource")
    (h2m : r2.method = "GET") (h2p : r2.path = "/.well-known/oauth-protected-resource") :
    handleRequest supabaseUrl publicUrlEnv authServerUrlEnv getUser1 r1 =
      handleRequest supabaseUrl publicUrlEnv authServerUrlEnv getUser2 r2 := by
  obtain ⟨m1, p1, a1⟩ := r1
  obtain ⟨m2, p2, a2⟩ := r2
  simp only at h1m h1p h2m h2p
  subst h1m h1p h2m h2p
  rfl

/-- C9 witness: two concrete discovery requests, one bare and one carrying a
bearer header against a different identity-service behavior, get the same
response. -/
theorem discovery_idempotent_witness :
    handleRequest "https://proj.example.co" none none noUserNoError
        { method := "GET", path := "/.well-known/oauth-protected-resource",
          authorization := none } =
      handleRequest "https://proj.example.co" none none alwaysValidOracle
        { method := "GET", path := "/.well-known/oauth-protected-resource",
          authorization := some "Bearer tok" } :=
  discovery_idempotent "https://proj.example.co" none none noUserNoError alwaysValidOracle
    _ _ rfl rfl rfl rfl

/-- C3 counterexample: when the identity service returns neither a principal
nor a failure reason, the gate's JSON body carries `error_description =
"Invalid token"` (the default supplied inside `validateToken`), not the
claimed default `"Token validation failed"`. -/
theorem invalid_token_default_counterexample :
    (authMiddleware "https://proj.example.co/functions/v1/simple-mcp-server"
        noUserNoError (some "Bearer sometoken")).1 =
      GateResult.reject 401
        { error := "invalid_token", error_description := "Invalid token" }
        (buildWwwAuthenticateHeader "https://proj.example.co/functions/v1/simple-mcp-server"
          (some "invalid_token") (some "Invalid token"))
    ∧ "Invalid token" ≠ "Token validation failed" := by
  exact ⟨rfl, by decide⟩

/-- C3 (amended): on a well-framed bearer credential whose introspection
fails or yields no principal, the gate responds 401 with body error
`invalid_token` and `error_description` equal to the identity service's
reported reason when present and non-empty, and otherwise the default text
`"Invalid token"` (via `jsOrDefault`; the middleware's own
`"Token validation failed"` fallback is unreachable because `validateToken`
always supplies a non-empty reason). -/
theorem invalid_token_description (mcpResourceUrl : String)
    (getUser : String → GetUserResult) (h tok : String)
    (hsch : jsToLowerCase ((jsSplitSpace h).headD "") = "bearer")
    (htok : (jsSplitSpace h)[1]? = some tok)
    (hne : tok ≠ "")
    (hfail : (getUser tok).error.isSome ∨ (getUser tok).user = none) :
    (authMiddleware mcpResourceUrl getUser (some h)).1 =
      GateResult.reject 401
        { error := "invalid_token",
          error_description := jsOrDefault (getUser tok).error "Invalid token" }
        (buildWwwAuthenticateHeader mcpResourceUrl (some "invalid_token")
          (some (jsOrDefault (getUser tok).error "Invalid token"))) := by
  have hok : schemeTokenOk h = true := by
    rw [List.headD_eq_head?] at hsch
    simp [schemeTokenOk, hsch, htok, jsTruthy, hne]
  have hne0 : h ≠ "" := by
    intro he
    subst he
    exact absurd hsch (by decide)
  rw [authMiddleware_some mcpResourceUrl getUser h hne0, authMiddlewareHeader_cases,
    if_pos hok, htok]
  rw [show (some tok).getD "" = tok from rfl,
    authValidatePhase_of_failure mcpResourceUrl getUser tok hfail]

/-- C3 witness: a concrete failing introspection with reported reason
`"Token expired"` is echoed into the body. -/
theorem invalid_token_description_witness :
    (authMiddleware "https://m" (fun _ => { user := none, error := some "Token expired" })
        (some "Bearer t")).1 =
      GateResult.reject 401
        { error := "invalid_token", error_description := "Token expired" }
        (buildWwwAuthenticateHeader "https://m" (some "invalid_token")
          (some "Token expired")) :=
  invalid_token_description "https://m"
    (fun _ => { user := none, error := some "Token expired" }) "Bearer t" "t"
    (by decide) (by decide) (by decide) (Or.inl (by decide))

/-- C4: on a well-framed bearer credential whose introspection succeeds, the
gate admits the request: the principal returned by the identity service is
stored unmodified in request state, the pipeline continues to the protected
handler exactly once (`callNext` appears once), and introspection is invoked
exactly once. -/
theorem valid_token_allows (mcpResourceUrl : String)
    (getUser : String → GetUserResult) (h tok : String) (u : SupabaseUser)
    (hsch : jsToLowerCase ((jsSplitSpace h).headD "") = "bearer")
    (htok : (jsSplitSpace h)[1]? = some tok)
    (hne : tok ≠ "")
    (hg : getUser tok = { user := some u, error := none }) :
    authMiddleware mcpResourceUrl getUser (some h) =
      (GateResult.allow (some u),
       [Effect.introspect tok, Effect.setUser (some u), Effect.callNext]) := by
  have hok : schemeTokenOk h = true := by
    rw [List.headD_eq_head?] at hsch
    simp [schemeTokenOk, hsch, htok, jsTruthy, hne]
  have hne0 : h ≠ "" := by
    intro he
    subst he
    exact absurd hsch (by decide)
  rw [authMiddleware_some mcpResourceUrl getUser h hne0, authMiddlewareHeader_cases,
    if_pos hok, htok]
  rw [show (some tok).getD "" = tok from rfl,
    authValidatePhase_of_success mcpResourceUrl getUser tok u hg]

/-- C4 witness: a concrete accepted credential reaches the handler with the
identity service's user attached. -/
theorem valid_token_allows_witness :
    authMiddleware "https://proj.example.co/functions/v1/simple-mcp-server"
        alwaysValidOracle (some "Bearer t") =
      (GateResult.allow (some { id := "u1" }),
       [Effect.introspect "t", Effect.setUser (some { id := "u1" }), Effect.callNext]) :=
  valid_token_allows "https://proj.example.co/functions/v1/simple-mcp-server"
    alwaysValidOracle "Bearer t" "t" { id := "u1" }
    (by decide) (by decide) (by decide) rfl

/-- C6: whatever the request, if the gate rejects, the `WWW-Authenticate`
value is `Bearer resource_metadata="<ResourceIdentity>/.well-known/oauth-protected-resource"`,
optionally followed by `, error="<code>"` and then
`, error_description="<text>"`, in that order. -/
theorem rejection_challenge_form (mcpResourceUrl : String)
    (getUser : String → GetUserResult) (authHeader : Option String)
    (status : Nat) (body : ErrorBody) (chal : String)
    (hrej : (authMiddleware mcpResourceUrl getUser authHeader).1 =
      GateResult.reject status body chal) :
    challengeHasForm mcpResourceUrl chal := by
  rcases Bool.eq_false_or_eq_true (jsTruthy authHeader) with ht | hf
  case inr =>
    rw [authMiddleware_falsy mcpResourceUrl getUser authHeader hf] at hrej
    left
    have : challengeBase mcpResourceUrl = chal := by
      injection hrej
    exact this.symm
  case inl =>
    obtain ⟨h, rfl⟩ : ∃ hdr, authHeader = some hdr := by
      cases authHeader with
      | none => simp [jsTruthy] at ht
      | some h => exact ⟨h, rfl⟩
    have hne : h ≠ "" := by
      simpa [jsTruthy] using ht
    rw [authMiddleware_some mcpResourceUrl getUser h hne,
      authMiddlewareHeader_cases] at hrej
    cases hok : schemeTokenOk h with
      | false =>
          rw [hok, if_neg (by simp)] at hrej
          right; right
          refine ⟨"invalid_request", "Bearer token required", ?_⟩
          have : buildWwwAuthenticateHeader mcpResourceUrl (some "invalid_request")
              (some "Bearer token required") = chal := by
            rw [invalidRequestReject] at hrej
            injection hrej
          rw [← this]
          simp [buildWwwAuthenticateHeader, challengeBase, jsTruthy]
      | true =>
          rw [hok, if_pos rfl] at hrej
          rcases hv : (validateToken getUser ((jsSplitSpace h)[1]?.getD "")).valid with _ | _
          · have hX : (validateToken getUser ((jsSplitSpace h)[1]?.getD "")).error =
                some (jsOrDefault (getUser ((jsSplitSpace h)[1]?.getD "")).error "Invalid token") := by
              unfold validateToken at hv ⊢
              cases hc : ((getUser ((jsSplitSpace h)[1]?.getD "")).error.isSome ||
                  (getUser ((jsSplitSpace h)[1]?.getD "")).user.isNone) <;>
                simp [hc] at hv ⊢
            right; right
            refine ⟨"invalid_token",
              jsOrDefault (getUser ((jsSplitSpace h)[1]?.getD "")).error "Invalid token", ?_⟩
            have hchal : buildWwwAuthenticateHeader mcpResourceUrl (some "invalid_token")
                (validateToken getUser ((jsSplitSpace h)[1]?.getD "")).error = chal := by
              unfold authValidatePhase at hrej
              rw [if_pos (by simp [hv])] at hrej
              injection hrej
            rw [← hchal, hX]
            have hXne : jsOrDefault (getUser ((jsSplitSpace h)[1]?.getD "")).error
                "Invalid token" ≠ "" := jsOrDefault_ne_empty _ _ (by simp)
            simp [buildWwwAuthenticateHeader, challengeBase, jsTruthy, hXne]
          · exfalso
            unfold authValidatePhase at hrej
            rw [if_neg (by simp [hv])] at hrej
            exact GateResult.noConfusion hrej

/-- C6 witness: the missing-header rejection's challenge has the required
form. -/
theorem rejection_challenge_form_witness :
    (authMiddleware "https://m" noUserNoError none).1 =
      GateResult.reject 401
        { error := "unauthorized", error_description := "Missing authorization header" }
        (challengeBase "https://m")
    ∧ challengeHasForm "https://m" (challengeBase "https://m") :=
  ⟨rfl, rejection_challenge_form "https://m" noUserNoError none 401
    { error := "unauthorized", error_description := "Missing authorization header" }
    (challengeBase "https://m") rfl⟩

/-- C8 counterexample: the loopback base `http://127.0.0.1:54321` matches
the repository's own local-development marker set (`isLocal`), yet the
`getPublicBaseUrl` variant leaves it unmodified, so the resolved
ResourceIdentity host stays `127.0.0.1:54321`, not `localhost:54321`. -/
theorem loopback_not_substituted_counterexample :
    isLocal "http://127.0.0.1:54321" = true
    ∧ getPublicBaseUrl "http://127.0.0.1:54321" = "http://127.0.0.1:54321"
    ∧ getUrlsKongVariant "http://127.0.0.1:54321" =
        ("http://127.0.0.1:54321/functions/v1/simple-mcp-server",
         "http://127.0.0.1:54321/auth/v1")
    ∧ "http://127.0.0.1:54321" ≠ "http://localhost:54321" := by
  exact ⟨by decide, by decide, by decide, by decide⟩

/-- C8 (amended): in the variant whose resolution tests the full local
marker set (`127.0.0.1`, `localhost`, `kong:8000`), any matching base URL is
replaced by the fixed local base, so the resolved resource and authorization
server live on `localhost:54321`; in the `getPublicBaseUrl` variant only
base URLs containing the service-mesh marker `kong` are substituted, and
loopback bases pass through unmodified. -/
theorem local_marker_substitution (url : String) :
    (isLocal url = true →
      publicUrlLocalVariant url = "http://localhost:54321/functions/v1/mcp"
      ∧ authServerUrlLocalVariant url = "http://localhost:54321/auth/v1")
    ∧ (jsIncludes url "kong" = true →
      getPublicBaseUrl url = "http://localhost:54321") := by
  refine ⟨fun hl => ?_, fun hk => ?_⟩
  · rw [publicUrlLocalVariant, authServerUrlLocalVariant, if_pos hl, if_pos hl]
    exact ⟨rfl, rfl⟩
  · rw [getPublicBaseUrl, if_pos hk]

/-- C8 witness: the service-mesh base `http://kong:8000` is substituted by
both variants. -/
theorem local_marker_substitution_witness :
    (publicUrlLocalVariant "http://kong:8000" = "http://localhost:54321/functions/v1/mcp"
      ∧ authServerUrlLocalVariant "http://kong:8000" = "http://localhost:54321/auth/v1")
    ∧ getPublicBaseUrl "http://kong:8000" = "http://localhost:54321" :=
  ⟨(local_marker_substitution "http://kong:8000").1 (by decide),
   (local_marker_substitution "http://kong:8000").2 (by decide)⟩

/-- C10 counterexample: the header `"Bearer  b"` (two spaces) has three
space-separated parts, yet the gate rejects it as malformed with
`invalid_request` and never invokes introspection, because its second part
is the empty string. -/
theorem extra_parts_counterexample :
    (jsSplitSpace "Bearer  b").length = 3
    ∧ (authMiddleware "https://m" noUserNoError (some "Bearer  b")).1 =
        invalidRequestReject "https://m"
    ∧ (authMiddleware "https://m" noUserNoError (some "Bearer  b")).2 = [] := by
  exact ⟨by decide, rfl, rfl⟩

/-- C10 (amended): for every Authorization header with more than two
space-separated parts whose first part lowers to `"bearer"` and whose second
part is non-empty, the framing check passes: the gate does not reject the
request as malformed, exactly the second part is submitted to introspection,
and everything after the second space is discarded. -/
theorem extra_parts_discarded (mcpResourceUrl : String)
    (getUser : String → GetUserResult) (h : String)
    (hlen : 2 < (jsSplitSpace h).length)
    (hsch : jsToLowerCase ((jsSplitSpace h).headD "") = "bearer")
    (hne : (jsSplitSpace h)[1]?.getD "" ≠ "") :
    (authMiddleware mcpResourceUrl getUser (some h)).1 ≠ invalidRequestReject mcpResourceUrl
    ∧ ((authMiddleware mcpResourceUrl getUser (some h)).2.filter
        (fun e => match e with | Effect.introspect _ => true | _ => false))
      = [Effect.introspect ((jsSplitSpace h)[1]?.getD "")] := by
  have hok : schemeTokenOk h = true := by
    rw [List.headD_eq_head?] at hsch
    simp [schemeTokenOk, hsch, jsTruthy_iff_getD, hne]
  have hne0 : h ≠ "" := by
    intro he
    subst he
    exact absurd hsch (by decide)
  rw [authMiddleware_some mcpResourceUrl getUser h hne0, authMiddlewareHeader_cases,
    if_pos hok]
  refine ⟨authValidatePhase_ne_invalidRequest mcpResourceUrl getUser _, ?_⟩
  unfold authValidatePhase
  cases hv : (validateToken getUser ((jsSplitSpace h)[1]?.getD "")).valid <;>
    simp [hv, List.filter]

/-- C10 witness: the header `"Bearer a b"` passes framing and submits
exactly `"a"` to introspection. -/
theorem extra_parts_discarded_witness :
    (authMiddleware "https://m" noUserNoError (some "Bearer a b")).1 ≠
        invalidRequestReject "https://m"
    ∧ ((authMiddleware "https://m" noUserNoError (some "Bearer a b")).2.filter
        (fun e => match e with | Effect.introspect _ => true | _ => false))
      = [Effect.introspect "a"] :=
  extra_parts_discarded "https://m" noUserNoError "Bearer a b"
    (by decide) (by decide) (by decide)

end McpAuthEdge
